import Mathlib

/-!
Verification of the pose-capture repository (seat-occupancy streaming).

The Python sources are shallowly embedded: floating-point values are
modelled as rationals (`ℚ`), pixel coordinates as integers, Python dicts
as insertion-ordered association lists, fallible constructors as
`Except`, and JSON-compatible values as the inductive `JVal`.
-/

/-- JSON-compatible value, the codomain of `json.dumps`-ready payloads.
Objects are insertion-ordered key/value lists, as Python dicts are. -/
inductive JVal where
  | null : JVal
  | bool : Bool → JVal
  | num : ℚ → JVal
  | str : String → JVal
  | arr : List JVal → JVal
  | obj : List (String × JVal) → JVal

/-! ## providers.py -/

/-- Embeds `Joint` (src/pose_capture/providers.py). -/
structure Joint where
  name : String
  position : List ℚ
  rotation : Option (List ℚ)
  confidence : ℚ
deriving DecidableEq

/-- Embeds `SkeletonData` (src/pose_capture/providers.py). The Python
`joints : Dict[str, Joint]` is modelled as its insertion-ordered list of
key/value entries; `metadata` likewise. -/
structure SkeletonData where
  joints : List (String × Joint)
  timestamp_ms : Int
  metadata : List (String × JVal)

/-- Embeds the inner `_as_vec` helper of `SkeletonData.to_dict`.
`none` stands for Python `None`; `some []` is the falsy empty list, on
which the code also returns `None`.  The source raises `ValueError` for
an `expected` other than 3 or 4; the call sites only use 3 and 4, and
that unreachable branch is modelled as `none`. -/
def _as_vec (values : Option (List ℚ)) (expected : Nat) : Option JVal :=
  match values with
  | none => none
  | some vs =>
    if vs = [] then none
    else
      let padded := vs.take expected ++ List.replicate (expected - vs.length) 0
      if expected = 3 then
        some (JVal.obj [("x", JVal.num (padded.getD 0 0)), ("y", JVal.num (padded.getD 1 0)),
          ("z", JVal.num (padded.getD 2 0))])
      else if expected = 4 then
        some (JVal.obj [("x", JVal.num (padded.getD 0 0)), ("y", JVal.num (padded.getD 1 0)),
          ("z", JVal.num (padded.getD 2 0)), ("w", JVal.num (padded.getD 3 0))])
      else none

/-- Python `None` serializes to JSON `null`. -/
def optJ : Option JVal → JVal
  | none => JVal.null
  | some v => v

/-- The comparator used by `sorted(self.joints.values(), key=lambda j: j.name)`.
Python `sorted` is stable, as is `List.mergeSort`. -/
def jointLe (a b : Joint) : Bool := decide (a.name ≤ b.name)

/-- Serialization of one joint inside `SkeletonData.to_dict`. -/
def jointToJson (j : Joint) : JVal :=
  JVal.obj [("_name", JVal.str j.name),
    ("_position", optJ (_as_vec (some j.position) 3)),
    ("_rotation", optJ (_as_vec j.rotation 4)),
    ("_confidence", JVal.num j.confidence)]

/-- Embeds `SkeletonData.to_dict` (src/pose_capture/providers.py): the
payload dict holds keys `_timestamp` and `_joints`, plus `Meta` exactly
when the metadata dict is non-empty (Python truthiness of `self.metadata`). -/
def SkeletonData.to_dict (s : SkeletonData) : List (String × JVal) :=
  let sortedJoints := (s.joints.map Prod.snd).mergeSort jointLe
  [("_timestamp", JVal.num (s.timestamp_ms : ℚ)),
   ("_joints", JVal.arr (sortedJoints.map jointToJson))]
    ++ (if s.metadata.isEmpty then [] else [("Meta", JVal.obj s.metadata)])

/-! ## seating.py -/

/-- Embeds `SeatRegion` (src/pose_capture/seating.py). -/
structure SeatRegion where
  seat_id : String
  x_min : ℚ
  y_min : ℚ
  x_max : ℚ
  y_max : ℚ
deriving DecidableEq

/-- Embeds `SeatRegion.contains`: boundary-inclusive point containment. -/
def SeatRegion.contains (s : SeatRegion) (x y : ℚ) : Bool :=
  decide (s.x_min ≤ x ∧ x ≤ s.x_max ∧ s.y_min ≤ y ∧ y ≤ s.y_max)

/-- Embeds the `width` property of `SeatRegion`. -/
def SeatRegion.width (s : SeatRegion) : ℚ := max 0 (s.x_max - s.x_min)

/-- Embeds the `height` property of `SeatRegion`. -/
def SeatRegion.height (s : SeatRegion) : ℚ := max 0 (s.y_max - s.y_min)

/-- The duplicate-id scan of `SeatingLayout.__init__`: walks the seat
list carrying the `seen` set of ids, reporting whether a duplicate is hit. -/
def hasDuplicateId : List SeatRegion → List String → Bool
  | [], _ => false
  | s :: rest, seen =>
    if s.seat_id ∈ seen then true else hasDuplicateId rest (s.seat_id :: seen)

/-- Embeds `SeatingLayout.__init__`: rejects an empty list or a duplicate
seat id (`ValueError` in the source), otherwise keeps the seats in input
order.  A constructed layout is modelled by its ordered seat list. -/
def SeatingLayout.init (seats : List SeatRegion) : Except String (List SeatRegion) :=
  if seats.isEmpty then Except.error "SeatingLayout requires at least one seat"
  else if hasDuplicateId seats [] then Except.error "Duplicate seat id detected"
  else Except.ok seats

/-- Embeds `SeatingLayout.resolve`: scan in list order, return the first
seat containing the point. -/
def SeatingLayout.resolve (seats : List SeatRegion) (x y : ℚ) : Option SeatRegion :=
  match seats with
  | [] => none
  | s :: rest => if s.contains x y then some s else SeatingLayout.resolve rest x y

/-- Embeds `_compute_confidence` (src/pose_capture/seating.py). -/
def _compute_confidence (seat : SeatRegion) (x y : ℚ) : ℚ :=
  if seat.width ≤ 0 ∨ seat.height ≤ 0 then 0
  else
    let margin_x := min (x - seat.x_min) (seat.x_max - x)
    let margin_y := min (y - seat.y_min) (seat.y_max - y)
    if margin_x < 0 ∨ margin_y < 0 then 0
    else
      let half_width := seat.width * (1/2)
      let half_height := seat.height * (1/2)
      if half_width ≤ 0 ∨ half_height ≤ 0 then 0
      else
        let normalized_margin := min (margin_x / half_width) (margin_y / half_height)
        max 0 (min 1 normalized_margin)

/-- The metadata fields inspected by `_extract_normalized_root`. A field
that is absent, is not a mapping, or whose entries fail float conversion
is modelled as `none` (the source swallows those errors and falls
through). -/
structure FrameMeta where
  root_center_normalized : Option (ℚ × ℚ)
  root_center_pixel : Option (ℚ × ℚ)
  frame_dimensions : Option (ℚ × ℚ)

/-- Embeds `_extract_normalized_root` (src/pose_capture/seating.py):
prefer `root_center_normalized`; otherwise divide `root_center_pixel`
componentwise by `frame_dimensions` (a zero dimension raises
`ZeroDivisionError`, caught and turned into `None`). -/
def _extract_normalized_root (m : FrameMeta) : Option (ℚ × ℚ) :=
  match m.root_center_normalized with
  | some p => some p
  | none =>
    match m.root_center_pixel, m.frame_dimensions with
    | some (px, py), some (w, h) =>
        if w = 0 ∨ h = 0 then none else some (px / w, py / h)
    | _, _ => none

/-- The `bounds` object of one entry of a seat-occupancy report. -/
structure ReportBounds where
  xMin : ℚ
  xMax : ℚ
  yMin : ℚ
  yMax : ℚ
deriving DecidableEq

/-- One entry of the `seats` list of a seat-occupancy report. -/
structure SeatEntry where
  id : String
  occupied : Bool
  bounds : ReportBounds
deriving DecidableEq

/-- Embeds the report dict built by `SeatingLayout.evaluate`. -/
structure SeatOccupancyReport where
  activeSeatId : Option String
  confidence : ℚ
  seats : List SeatEntry
deriving DecidableEq

/-- Embeds `SeatingLayout.evaluate` (src/pose_capture/seating.py).  The
`occupancy` dict keyed by seat id marks exactly the resolved seat's id
occupied; each listed entry looks its own id up in that dict. -/
def SeatingLayout.evaluate (seats : List SeatRegion) (m : FrameMeta) :
    Option SeatOccupancyReport :=
  match _extract_normalized_root m with
  | none => none
  | some (nx, ny) =>
    let seat := SeatingLayout.resolve seats nx ny
    let confidence : ℚ := match seat with
      | some t => _compute_confidence t nx ny
      | none => 0
    let active : Option String := seat.map SeatRegion.seat_id
    let occupiedOf : SeatRegion → Bool := fun sr =>
      match seat with
      | some t => sr.seat_id == t.seat_id
      | none => false
    some { activeSeatId := active
           confidence := confidence
           seats := seats.map (fun sr =>
             { id := sr.seat_id
               occupied := occupiedOf sr
               bounds := { xMin := sr.x_min, xMax := sr.x_max
                           yMin := sr.y_min, yMax := sr.y_max } }) }

/-- One raw entry of the `seats` payload consumed by
`SeatingLayout.from_mapping`; `bounds` is `none` when the entry has no
bounds mapping or a float conversion fails. -/
structure RawSeat where
  id : String
  bounds : Option (ℚ × ℚ × ℚ × ℚ)

/-- The parsing loop of `SeatingLayout.from_mapping`: reject a missing
bounds mapping and reject `x_min ≥ x_max` or `y_min ≥ y_max`
("non-positive bounds"), building `SeatRegion`s in order. -/
def parseSeats : List RawSeat → Except String (List SeatRegion)
  | [] => Except.ok []
  | raw :: rest =>
    match raw.bounds with
    | none => Except.error "Seat missing bounds"
    | some (xm, xM, ym, yM) =>
      if xm ≥ xM ∨ ym ≥ yM then Except.error "Seat has non-positive bounds"
      else
        match parseSeats rest with
        | Except.error e => Except.error e
        | Except.ok tail =>
            Except.ok ({ seat_id := raw.id, x_min := xm, y_min := ym
                         x_max := xM, y_max := yM } :: tail)

/-- Embeds `SeatingLayout.from_mapping`: parse the entries, then run the
`SeatingLayout` constructor on the parsed list. -/
def SeatingLayout.from_mapping (raws : List RawSeat) : Except String (List SeatRegion) :=
  match parseSeats raws with
  | Except.error e => Except.error e
  | Except.ok seats => SeatingLayout.init seats

/-! ## transports.py -/

/-- Outcome of awaiting the underlying `websocket.send(payload)` call:
it either succeeds or raises (`AttributeError` or any other exception —
the two `except` arms of the source). -/
inductive WireOutcome where
  | ok : WireOutcome
  | raiseAttr : WireOutcome
  | raiseOther : WireOutcome
deriving DecidableEq

/-- What a `send` call did, observationally. -/
inductive SendResult where
  | droppedNoConn : SendResult
  | sent : SendResult
  | failedCleared : SendResult
deriving DecidableEq

/-- The state of `WebSocketSkeletonTransport` relevant to `send`:
the tracked client connection, if any (handles are abstracted to `Nat`). -/
structure WSState where
  connection : Option Nat
deriving DecidableEq

/-- Embeds `WebSocketSkeletonTransport.send`
(src/pose_capture/transports.py): with no tracked connection the frame
is silently dropped; a raising underlying send is caught and clears the
tracked connection.  The `Except` codomain records whether the call
itself raises — it never does for this transport. -/
def wsSend (st : WSState) (outcome : WireOutcome) : Except String (WSState × SendResult) :=
  match st.connection with
  | none => Except.ok (st, SendResult.droppedNoConn)
  | some _ =>
    match outcome with
    | WireOutcome.ok => Except.ok (st, SendResult.sent)
    | WireOutcome.raiseAttr => Except.ok ({ connection := none }, SendResult.failedCleared)
    | WireOutcome.raiseOther => Except.ok ({ connection := none }, SendResult.failedCleared)

/-- The state of `UDPSkeletonTransport` relevant to `send`: the socket,
if `connect()` has been called (sockets are abstracted to `Nat`). -/
structure UDPState where
  socket : Option Nat
deriving DecidableEq

/-- Embeds `UDPSkeletonTransport.send` (src/pose_capture/transports.py):
with no socket it raises `RuntimeError("Transport is not connected")`;
otherwise one datagram is sent. -/
def udpSend (st : UDPState) : Except String (UDPState × SendResult) :=
  match st.socket with
  | none => Except.error "Transport is not connected"
  | some _ => Except.ok (st, SendResult.sent)

/-! ## pose_capture_app.py -/

/-- Python `d[k] = v` on an insertion-ordered dict: replace in place if
the key exists, else append. -/
def setKey : List (String × JVal) → String → JVal → List (String × JVal)
  | [], k, v => [(k, v)]
  | (k1, v1) :: rest, k, v =>
    if k1 = k then (k, v) :: rest else (k1, v1) :: setKey rest k v

/-- Python `d.update(e)`: assign every entry of `e` into `d`, in order. -/
def dictUpdate (d e : List (String × JVal)) : List (String × JVal) :=
  e.foldl (fun acc kv => setKey acc kv.1 kv.2) d

/-- Embeds `PoseCaptureApp._apply_metadata`
(src/pose_capture/pose_capture_app.py).  `calibration` is
`self._calibration_data` (`none` = not loaded, and an empty dict is
falsy, so both are skipped); `staticMeta` is `self.config.metadata`
(skipped when empty); `seatingEval` is `none` when
`self.config.seating_layout` is `None`, otherwise
`some` of the layout's `evaluate` result for this frame (itself an
`Option`, set under the "seating" key only when truthy). -/
def _apply_metadata (frameMeta : List (String × JVal))
    (calibration : Option (List (String × JVal)))
    (staticMeta : List (String × JVal))
    (seatingEval : Option (Option JVal)) : List (String × JVal) :=
  let merged := frameMeta
  let merged := match calibration with
    | some c => if c.isEmpty then merged else dictUpdate merged c
    | none => merged
  let merged := if staticMeta.isEmpty then merged else dictUpdate merged staticMeta
  match seatingEval with
  | some (some report) => setKey merged "seating" report
  | _ => merged

/-! ## live_seating_editor.py -/

/-- Embeds `LiveSeatingEditor._MIN_EXTENT` (0.02). -/
def _MIN_EXTENT : ℚ := 1 / 50

/-- Embeds `LiveSeatingEditor._clamp`. -/
def _clamp (value lower upper : ℚ) : ℚ := max lower (min upper value)

/-- Embeds `_SeatDraft` (src/pose_capture/live_seating_editor.py). -/
structure SeatDraft where
  seat_id : String
  x_min : ℚ
  y_min : ℚ
  x_max : ℚ
  y_max : ℚ
deriving DecidableEq

/-- Embeds `_SeatDraft.to_region`. -/
def SeatDraft.to_region (d : SeatDraft) : SeatRegion :=
  { seat_id := d.seat_id, x_min := d.x_min, y_min := d.y_min
    x_max := d.x_max, y_max := d.y_max }

/-- A resize drag anchor: which of the letters l/r/t/b occur in the
`_drag_anchor` string ("lt", "rt", "lb" or "rb" as produced by
`_pick_seat`). -/
structure Anchor where
  l : Bool
  r : Bool
  t : Bool
  b : Bool
deriving DecidableEq

/-- Top-left corner anchor "lt". -/
def anchorLT : Anchor := { l := true, r := false, t := true, b := false }

/-- Top-right corner anchor "rt". -/
def anchorRT : Anchor := { l := false, r := true, t := true, b := false }

/-- Bottom-left corner anchor "lb". -/
def anchorLB : Anchor := { l := true, r := false, t := false, b := true }

/-- Bottom-right corner anchor "rb". -/
def anchorRB : Anchor := { l := false, r := true, t := false, b := true }

/-- The resize branch of `LiveSeatingEditor._update_drag`, applied to
the selected seat: each edge named by the anchor is clamped and
assigned in the source's order (`x_min`, `x_max`, `y_min`, `y_max`),
each assignment seeing the previous ones. -/
def resizeSeat (seat : SeatDraft) (anchor : Anchor) (nx ny : ℚ) : SeatDraft :=
  let s1 := if anchor.l then
      { seat with x_min := _clamp nx 0 (seat.x_max - _MIN_EXTENT) } else seat
  let s2 := if anchor.r then
      { s1 with x_max := _clamp nx (s1.x_min + _MIN_EXTENT) 1 } else s1
  let s3 := if anchor.t then
      { s2 with y_min := _clamp ny 0 (s2.y_max - _MIN_EXTENT) } else s2
  if anchor.b then { s3 with y_max := _clamp ny (s3.y_min + _MIN_EXTENT) 1 } else s3

/-- The resize branch of `_update_drag` including the pixel-to-normalized
conversion `nx = x / max(1, frame_width)`, `ny = y / max(1, frame_height)`. -/
def _update_drag_resize (frameW frameH : Int) (x y : Int)
    (seat : SeatDraft) (anchor : Anchor) : SeatDraft :=
  resizeSeat seat anchor ((x : ℚ) / ((max 1 frameW : Int) : ℚ))
    ((y : ℚ) / ((max 1 frameH : Int) : ℚ))

/-- The editor state touched by seat creation. -/
structure EditorState where
  seats : List SeatDraft
  selected : Option Nat
  frameW : Int
  frameH : Int

/-- Decimal digit to its character (codepoint 48 + d). -/
def digitChar (d : Nat) : Char := Char.ofNat (48 + d)

/-- Decimal rendering of a natural number (Python `str(n)`). -/
def decString (n : Nat) : String :=
  if n = 0 then "0" else String.mk (((Nat.digits 10 n).reverse).map digitChar)

/-- Python `f"{n:02d}"`: pad to two digits with a leading zero. -/
def pad2 (n : Nat) : String :=
  if n < 10 then "0" ++ decString n else decString n

/-- The candidate id `f"seat-{index:02d}"` tried by `_generate_seat_id`. -/
def candidateId (index : Nat) : String := "seat-" ++ pad2 index

/-- Largest length among a list of strings. -/
def maxLen (l : List String) : Nat := l.foldr (fun s acc => max s.length acc) 0

theorem le_maxLen {l : List String} {s : String} (h : s ∈ l) : s.length ≤ maxLen l := by
  induction l with
  | nil => cases h
  | cons a t ih =>
    rcases List.mem_cons.mp h with h | h
    · subst h; exact le_max_left _ _
    · exact le_trans (ih h) (le_max_right _ _)

theorem candidateId_length_pow (k : Nat) :
    (candidateId (10 ^ (k + 1))).length = k + 7 := by
  have h10 : (10 : Nat) ≤ 10 ^ (k + 1) := by
    calc (10 : ℕ) = 10 ^ 1 := (pow_one 10).symm
    _ ≤ 10 ^ (k + 1) := Nat.pow_le_pow_right (by norm_num) (by omega)
  have hne : 10 ^ (k + 1) ≠ 0 := by positivity
  have h5 : ("seat-" : String).length = 5 := rfl
  unfold candidateId pad2 decString
  rw [if_neg (by omega), if_neg hne, String.length_append,
    String.length_mk (((Nat.digits 10 (10 ^ (k + 1))).reverse).map digitChar),
    List.length_map, List.length_reverse, Nat.digits_len 10 _ (by norm_num) hne,
    Nat.log_pow (by norm_num), h5]
  omega

/-- The `while True` loop of `_generate_seat_id` terminates: some
candidate index is unused, e.g. one whose rendering is longer than every
existing id. -/
theorem exists_unused_candidate (existing : List String) :
    ∃ n, candidateId (n + 1) ∉ existing := by
  refine ⟨10 ^ (maxLen existing + 1) - 1, fun hmem => ?_⟩
  have hpow : 1 ≤ 10 ^ (maxLen existing + 1) := Nat.one_le_pow _ _ (by norm_num)
  rw [Nat.sub_add_cancel hpow] at hmem
  have hlen := le_maxLen hmem
  rw [candidateId_length_pow] at hlen
  omega

/-- Embeds `LiveSeatingEditor._generate_seat_id`: the first index (from
1 upward) whose candidate id is not among the existing seat ids. -/
def _generate_seat_id (existing : List String) : String :=
  candidateId (Nat.find (exists_unused_candidate existing) + 1)

/-- The `draft` built inside `LiveSeatingEditor._finalize_new_seat`:
order the drag corners, normalize by the frame dimensions (clamped to at
least 1), clamp into [0,1] keeping the minimum extent, and attach a
freshly generated id. -/
def _new_seat_draft (st : EditorState) (sx sy ex ey : Int) : SeatDraft :=
  let x1 := min sx ex
  let x2 := max sx ex
  let y1 := min sy ey
  let y2 := max sy ey
  let width : ℚ := ((max 1 st.frameW : Int) : ℚ)
  let height : ℚ := ((max 1 st.frameH : Int) : ℚ)
  let x_min := _clamp ((x1 : ℚ) / width) 0 (1 - _MIN_EXTENT)
  let x_max := _clamp ((x2 : ℚ) / width) (x_min + _MIN_EXTENT) 1
  let y_min := _clamp ((y1 : ℚ) / height) 0 (1 - _MIN_EXTENT)
  let y_max := _clamp ((y2 : ℚ) / height) (y_min + _MIN_EXTENT) 1
  let seat_id := _generate_seat_id (st.seats.map SeatDraft.seat_id)
  { seat_id := seat_id, x_min := x_min, y_min := y_min
    x_max := x_max, y_max := y_max }

/-- Embeds `LiveSeatingEditor._finalize_new_seat`: append the new draft
and select it. -/
def _finalize_new_seat (st : EditorState) (sx sy ex ey : Int) : EditorState :=
  { st with seats := st.seats ++ [_new_seat_draft st sx sy ex ey]
            selected := some st.seats.length }

/-- Embeds `LiveSeatingEditor._emit_layout`.  `none`: the callback is
not invoked (no callback, or layout construction raised and was
swallowed); `some none`: invoked with `None` (no seats);
`some (some l)`: invoked with the freshly built layout. -/
def _emit_layout (seats : List SeatDraft) : Option (Option (List SeatRegion)) :=
  if seats.isEmpty then some none
  else
    match SeatingLayout.init (seats.map SeatDraft.to_region) with
    | Except.ok l => some (some l)
    | Except.error _ => none

/-- The `EVENT_LBUTTONUP` branch of `LiveSeatingEditor._handle_create_mouse`
with `_create_start_px = (sx, sy)`: commit the seat only when the drag
spans at least 8 pixels on both axes, then emit; otherwise discard.
Returns the new editor state and the emission (as in `_emit_layout`). -/
def _handle_create_up (st : EditorState) (sx sy ex ey : Int) :
    EditorState × Option (Option (List SeatRegion)) :=
  if 8 ≤ (ex - sx).natAbs ∧ 8 ≤ (ey - sy).natAbs then
    let st2 := _finalize_new_seat st sx sy ex ey
    (st2, _emit_layout st2.seats)
  else (st, none)

/-! ## Claim C1: resolve scans in insertion order, inclusive containment -/

theorem resolve_eq_some_iff (seats : List SeatRegion) (x y : ℚ) (s : SeatRegion) :
    SeatingLayout.resolve seats x y = some s ↔
      ∃ pre post, seats = pre ++ s :: post ∧ s.contains x y = true ∧
        ∀ t ∈ pre, t.contains x y = false := by
  induction seats with
  | nil =>
    simp only [SeatingLayout.resolve]
    constructor
    · intro h; cases h
    · rintro ⟨pre, post, heq, -, -⟩
      exact absurd heq.symm (List.append_ne_nil_of_right_ne_nil pre (by simp))
  | cons a rest ih =>
    simp only [SeatingLayout.resolve]
    by_cases h : a.contains x y
    · simp only [h, if_true]
      constructor
      · intro hsome
        obtain rfl : a = s := Option.some.inj hsome
        exact ⟨[], rest, rfl, h, by simp⟩
      · rintro ⟨pre, post, heq, hs, hpre⟩
        cases pre with
        | nil =>
          simp only [List.nil_append, List.cons.injEq] at heq
          exact congrArg some heq.1
        | cons p ps =>
          simp only [List.cons_append, List.cons.injEq] at heq
          have : a.contains x y = false := heq.1 ▸ hpre p (List.mem_cons_self p ps)
          simp [this] at h
    · have hfalse : a.contains x y = false := by
        cases hcv : a.contains x y
        · rfl
        · exact absurd hcv h
      rw [if_neg h, ih]
      constructor
      · rintro ⟨pre, post, heq, hs, hpre⟩
        refine ⟨a :: pre, post, by rw [heq, List.cons_append], hs, ?_⟩
        intro t ht
        rcases List.mem_cons.mp ht with rfl | ht
        · exact hfalse
        · exact hpre t ht
      · rintro ⟨pre, post, heq, hs, hpre⟩
        cases pre with
        | nil =>
          simp only [List.nil_append, List.cons.injEq] at heq
          rw [heq.1] at hfalse
          rw [hs] at hfalse
          cases hfalse
        | cons p ps =>
          simp only [List.cons_append, List.cons.injEq] at heq
          refine ⟨ps, post, heq.2, hs, ?_⟩
          intro t ht
          exact hpre t (List.mem_cons_of_mem p ht)

theorem resolve_eq_none_iff (seats : List SeatRegion) (x y : ℚ) :
    SeatingLayout.resolve seats x y = none ↔ ∀ s ∈ seats, s.contains x y = false := by
  induction seats with
  | nil => simp [SeatingLayout.resolve]
  | cons a rest ih =>
    simp only [SeatingLayout.resolve]
    by_cases h : a.contains x y
    · simp [h]
    · have hfalse : a.contains x y = false := by simpa using h
      simp [hfalse, ih]

/-- C1: `resolve(x, y)` scans the seats in list (insertion) order and
returns the first seat whose rectangle contains the point, with
containment inclusive of the rectangle's boundaries; overlapping seats
resolve to the earliest-registered match, and when no seat contains the
point `resolve` returns nothing. -/
theorem C1_resolve_first_match_inclusive (seats : List SeatRegion) (x y : ℚ) :
    (∀ s : SeatRegion,
        SeatingLayout.resolve seats x y = some s ↔
          ∃ pre post, seats = pre ++ s :: post ∧ s.contains x y = true ∧
            ∀ t ∈ pre, t.contains x y = false)
    ∧ (SeatingLayout.resolve seats x y = none ↔ ∀ s ∈ seats, s.contains x y = false)
    ∧ (∀ s : SeatRegion, s.contains x y = true ↔
        (s.x_min ≤ x ∧ x ≤ s.x_max ∧ s.y_min ≤ y ∧ y ≤ s.y_max)) :=
  ⟨fun s => resolve_eq_some_iff seats x y s,
   resolve_eq_none_iff seats x y,
   fun s => by simp [SeatRegion.contains]⟩

/-! ## Claim C2: confidence scoring -/

/-- Modelled from the spec's words, for comparison with the source's
`_compute_confidence`: `clamp(min(margin_x / half_width,
margin_y / half_height), 0, 1)`. -/
def specConfidence (s : SeatRegion) (x y : ℚ) : ℚ :=
  _clamp (min (min (x - s.x_min) (s.x_max - x) / ((s.x_max - s.x_min) / 2))
              (min (y - s.y_min) (s.y_max - y) / ((s.y_max - s.y_min) / 2))) 0 1

theorem contains_iff {s : SeatRegion} {x y : ℚ} :
    s.contains x y = true ↔
      (s.x_min ≤ x ∧ x ≤ s.x_max ∧ s.y_min ≤ y ∧ y ≤ s.y_max) := by
  simp [SeatRegion.contains]

theorem confidence_eq_spec (s : SeatRegion) (x y : ℚ)
    (hx : s.x_min < s.x_max) (hy : s.y_min < s.y_max)
    (hc : s.contains x y = true) :
    _compute_confidence s x y = specConfidence s x y := by
  obtain ⟨h1, h2, h3, h4⟩ := contains_iff.mp hc
  have hw : s.width = s.x_max - s.x_min := max_eq_right (by linarith)
  have hh : s.height = s.y_max - s.y_min := max_eq_right (by linarith)
  have hwpos : 0 < s.width := by rw [hw]; linarith
  have hhpos : 0 < s.height := by rw [hh]; linarith
  simp only [_compute_confidence]
  rw [if_neg (by push_neg; constructor <;> linarith)]
  rw [if_neg (by
    push_neg
    constructor
    · exact le_min (by linarith) (by linarith)
    · exact le_min (by linarith) (by linarith))]
  rw [if_neg (by push_neg; constructor <;> nlinarith)]
  simp only [specConfidence, _clamp, hw, hh, mul_one_div]

theorem margin_anti_right {lo hi x1 x2 : ℚ} (hc : (lo + hi) / 2 ≤ x1) (h12 : x1 ≤ x2) :
    min (x2 - lo) (hi - x2) ≤ min (x1 - lo) (hi - x1) := by
  have h := min_le_right (x2 - lo) (hi - x2)
  exact le_min (by linarith) (by linarith)

theorem margin_anti_left {lo hi x1 x2 : ℚ} (hc : x1 ≤ (lo + hi) / 2) (h21 : x2 ≤ x1) :
    min (x2 - lo) (hi - x2) ≤ min (x1 - lo) (hi - x1) := by
  have h := min_le_left (x2 - lo) (hi - x2)
  exact le_min (by linarith) (by linarith)

theorem spec_anti_x (s : SeatRegion) (y : ℚ) (hx : s.x_min < s.x_max)
    {x1 x2 : ℚ}
    (hm : min (x2 - s.x_min) (s.x_max - x2) ≤ min (x1 - s.x_min) (s.x_max - x1)) :
    specConfidence s x2 y ≤ specConfidence s x1 y := by
  unfold specConfidence _clamp
  have hd : 0 < (s.x_max - s.x_min) / 2 := by linarith
  exact max_le_max le_rfl (min_le_min le_rfl
    (min_le_min ((div_le_div_iff_of_pos_right hd).mpr hm) le_rfl))

theorem spec_anti_y (s : SeatRegion) (x : ℚ) (hy : s.y_min < s.y_max)
    {y1 y2 : ℚ}
    (hm : min (y2 - s.y_min) (s.y_max - y2) ≤ min (y1 - s.y_min) (s.y_max - y1)) :
    specConfidence s x y2 ≤ specConfidence s x y1 := by
  unfold specConfidence _clamp
  have hd : 0 < (s.y_max - s.y_min) / 2 := by linarith
  exact max_le_max le_rfl (min_le_min le_rfl
    (min_le_min le_rfl ((div_le_div_iff_of_pos_right hd).mpr hm)))

theorem clamp_zero_left (r2 : ℚ) (h : 0 ≤ r2) :
    max 0 (min 1 (min 0 r2)) = (0 : ℚ) := by
  rw [min_eq_left h]; norm_num

theorem clamp_zero_right (r1 : ℚ) (h : 0 ≤ r1) :
    max 0 (min 1 (min r1 0)) = (0 : ℚ) := by
  rw [min_eq_right h]; norm_num

/-- C2: for a non-degenerate seat and a contained point the confidence
equals the spec formula `clamp(min(margin_x / half_width,
margin_y / half_height), 0, 1)`; the exact center scores 1, any boundary
point scores 0, the score is monotone non-increasing from the center
toward either edge along each axis, and a degenerate (zero-area) seat
scores 0. -/
theorem C2_confidence_scoring (s : SeatRegion) (x y : ℚ) :
    ((s.x_max ≤ s.x_min ∨ s.y_max ≤ s.y_min) → _compute_confidence s x y = 0)
    ∧ (s.x_min < s.x_max → s.y_min < s.y_max → s.contains x y = true →
        (_compute_confidence s x y = specConfidence s x y
          ∧ (x = (s.x_min + s.x_max) / 2 → y = (s.y_min + s.y_max) / 2 →
              _compute_confidence s x y = 1)
          ∧ ((x = s.x_min ∨ x = s.x_max ∨ y = s.y_min ∨ y = s.y_max) →
              _compute_confidence s x y = 0)))
    ∧ (s.x_min < s.x_max → s.y_min < s.y_max → s.y_min ≤ y → y ≤ s.y_max →
        ∀ x1 x2 : ℚ,
          ((s.x_min + s.x_max) / 2 ≤ x1 → x1 ≤ x2 → x2 ≤ s.x_max →
            _compute_confidence s x2 y ≤ _compute_confidence s x1 y)
          ∧ (s.x_min ≤ x2 → x2 ≤ x1 → x1 ≤ (s.x_min + s.x_max) / 2 →
            _compute_confidence s x2 y ≤ _compute_confidence s x1 y))
    ∧ (s.x_min < s.x_max → s.y_min < s.y_max → s.x_min ≤ x → x ≤ s.x_max →
        ∀ y1 y2 : ℚ,
          ((s.y_min + s.y_max) / 2 ≤ y1 → y1 ≤ y2 → y2 ≤ s.y_max →
            _compute_confidence s x y2 ≤ _compute_confidence s x y1)
          ∧ (s.y_min ≤ y2 → y2 ≤ y1 → y1 ≤ (s.y_min + s.y_max) / 2 →
            _compute_confidence s x y2 ≤ _compute_confidence s x y1)) := by
  refine ⟨?_, ?_, ?_, ?_⟩
  · intro h
    simp only [_compute_confidence]
    rw [if_pos]
    rcases h with h | h
    · exact Or.inl (by simp only [SeatRegion.width]; exact max_le le_rfl (by linarith))
    · exact Or.inr (by simp only [SeatRegion.height]; exact max_le le_rfl (by linarith))
  · intro hx hy hc
    obtain ⟨h1, h2, h3, h4⟩ := contains_iff.mp hc
    refine ⟨confidence_eq_spec s x y hx hy hc, ?_, ?_⟩
    · intro hcx hcy
      rw [confidence_eq_spec s x y hx hy hc]
      unfold specConfidence _clamp
      have e1 : x - s.x_min = (s.x_max - s.x_min) / 2 := by rw [hcx]; ring
      have e2 : s.x_max - x = (s.x_max - s.x_min) / 2 := by rw [hcx]; ring
      have e3 : y - s.y_min = (s.y_max - s.y_min) / 2 := by rw [hcy]; ring
      have e4 : s.y_max - y = (s.y_max - s.y_min) / 2 := by rw [hcy]; ring
      rw [e1, e2, e3, e4, min_self, min_self,
        div_self (by intro h0; rw [h0] at e1; nlinarith),
        div_self (by intro h0; rw [h0] at e3; nlinarith)]
      norm_num
    · intro hb
      rw [confidence_eq_spec s x y hx hy hc]
      unfold specConfidence _clamp
      have hrx : 0 ≤ min (x - s.x_min) (s.x_max - x) / ((s.x_max - s.x_min) / 2) :=
        div_nonneg (le_min (by linarith) (by linarith)) (by linarith)
      have hry : 0 ≤ min (y - s.y_min) (s.y_max - y) / ((s.y_max - s.y_min) / 2) :=
        div_nonneg (le_min (by linarith) (by linarith)) (by linarith)
      rcases hb with hb | hb | hb | hb
      · have e0 : x - s.x_min = 0 := by rw [hb]; ring
        rw [e0, min_eq_left (show (0:ℚ) ≤ s.x_max - x by linarith), zero_div,
          clamp_zero_left _ hry]
      · have e0 : s.x_max - x = 0 := by rw [hb]; ring
        rw [e0, min_eq_right (show (0:ℚ) ≤ x - s.x_min by linarith), zero_div,
          clamp_zero_left _ hry]
      · have e0 : y - s.y_min = 0 := by rw [hb]; ring
        rw [e0, min_eq_left (show (0:ℚ) ≤ s.y_max - y by linarith), zero_div,
          clamp_zero_right _ hrx]
      · have e0 : s.y_max - y = 0 := by rw [hb]; ring
        rw [e0, min_eq_right (show (0:ℚ) ≤ y - s.y_min by linarith), zero_div,
          clamp_zero_right _ hrx]
  · intro hx hy hyl hyu x1 x2
    constructor
    · intro hc1 h12 h2u
      have hcont1 : s.contains x1 y = true :=
        contains_iff.mpr ⟨by linarith, by linarith, hyl, hyu⟩
      have hcont2 : s.contains x2 y = true :=
        contains_iff.mpr ⟨by linarith, by linarith, hyl, hyu⟩
      rw [confidence_eq_spec s x1 y hx hy hcont1, confidence_eq_spec s x2 y hx hy hcont2]
      exact spec_anti_x s y hx (margin_anti_right hc1 h12)
    · intro h2l h21 hc1
      have hcont1 : s.contains x1 y = true :=
        contains_iff.mpr ⟨by linarith, by linarith, hyl, hyu⟩
      have hcont2 : s.contains x2 y = true :=
        contains_iff.mpr ⟨by linarith, by linarith, hyl, hyu⟩
      rw [confidence_eq_spec s x1 y hx hy hcont1, confidence_eq_spec s x2 y hx hy hcont2]
      exact spec_anti_x s y hx (margin_anti_left hc1 h21)
  · intro hx hy hxl hxu y1 y2
    constructor
    · intro hc1 h12 h2u
      have hcont1 : s.contains x y1 = true :=
        contains_iff.mpr ⟨hxl, hxu, by linarith, by linarith⟩
      have hcont2 : s.contains x y2 = true :=
        contains_iff.mpr ⟨hxl, hxu, by linarith, by linarith⟩
      rw [confidence_eq_spec s x y1 hx hy hcont1, confidence_eq_spec s x y2 hx hy hcont2]
      exact spec_anti_y s x hy (margin_anti_right hc1 h12)
    · intro h2l h21 hc1
      have hcont1 : s.contains x y1 = true :=
        contains_iff.mpr ⟨hxl, hxu, by linarith, by linarith⟩
      have hcont2 : s.contains x y2 = true :=
        contains_iff.mpr ⟨hxl, hxu, by linarith, by linarith⟩
      rw [confidence_eq_spec s x y1 hx hy hcont1, confidence_eq_spec s x y2 hx hy hcont2]
      exact spec_anti_y s x hy (margin_anti_left hc1 h21)

/-! ## Claim C3: evaluate — root extraction and the no-seat report -/

/-- C3: `evaluate` extracts the normalized root directly from
`root_center_normalized`, else by dividing `root_center_pixel`
componentwise by `frame_dimensions`; with no point it returns no
report; when the point lands in no seat the report has confidence 0, no
active seat id, and still lists every seat with `occupied = false`. -/
theorem C3_evaluate_extraction_and_no_match (seats : List SeatRegion) (m : FrameMeta) :
    (∀ p : ℚ × ℚ, m.root_center_normalized = some p →
        _extract_normalized_root m = some p)
    ∧ (∀ px py w h : ℚ, m.root_center_normalized = none →
        m.root_center_pixel = some (px, py) → m.frame_dimensions = some (w, h) →
        w ≠ 0 → h ≠ 0 → _extract_normalized_root m = some (px / w, py / h))
    ∧ (m.root_center_normalized = none →
        (m.root_center_pixel = none ∨ m.frame_dimensions = none) →
        SeatingLayout.evaluate seats m = none)
    ∧ (_extract_normalized_root m = none → SeatingLayout.evaluate seats m = none)
    ∧ (∀ p : ℚ × ℚ, _extract_normalized_root m = some p →
        SeatingLayout.resolve seats p.1 p.2 = none →
        SeatingLayout.evaluate seats m = some
          { activeSeatId := none
            confidence := 0
            seats := seats.map (fun sr =>
              { id := sr.seat_id, occupied := false
                bounds := { xMin := sr.x_min, xMax := sr.x_max
                            yMin := sr.y_min, yMax := sr.y_max } }) }) := by
  refine ⟨?_, ?_, ?_, ?_, ?_⟩
  · intro p hp
    simp [_extract_normalized_root, hp]
  · intro px py w h h0 hp hf hw hh
    simp [_extract_normalized_root, h0, hp, hf, hw, hh]
  · intro h0 hor
    have hnone : _extract_normalized_root m = none := by
      rcases hor with hp | hf
      · simp [_extract_normalized_root, h0, hp]
      · rcases hpx : m.root_center_pixel with _ | p2
        · simp [_extract_normalized_root, h0, hpx]
        · simp [_extract_normalized_root, h0, hpx, hf]
    simp [SeatingLayout.evaluate, hnone]
  · intro he
    simp [SeatingLayout.evaluate, he]
  · rintro ⟨nx, ny⟩ hp hres
    simp [SeatingLayout.evaluate, hp, hres]

/-! ## Claim C4: layout validation -/

theorem hasDuplicateId_eq_false_iff (seats : List SeatRegion) :
    ∀ seen : List String,
      (hasDuplicateId seats seen = false ↔
        ((seats.map SeatRegion.seat_id).Nodup ∧ ∀ s ∈ seats, s.seat_id ∉ seen)) := by
  induction seats with
  | nil => intro seen; simp [hasDuplicateId]
  | cons a rest ih =>
    intro seen
    simp only [hasDuplicateId]
    by_cases h : a.seat_id ∈ seen
    · rw [if_pos h]
      constructor
      · intro hf; simp at hf
      · rintro ⟨-, hall⟩
        exact absurd h (hall a (List.mem_cons_self a rest))
    · rw [if_neg h, ih (a.seat_id :: seen)]
      constructor
      · rintro ⟨hnd, hall⟩
        refine ⟨List.nodup_cons.mpr ⟨?_, hnd⟩, ?_⟩
        · intro hmem
          rcases List.mem_map.mp hmem with ⟨s, hs, hse⟩
          exact (hall s hs) (by rw [hse]; exact List.mem_cons_self _ _)
        · intro s hs
          rcases List.mem_cons.mp hs with rfl | hs2
          · exact h
          · intro hmem
            exact (hall s hs2) (List.mem_cons_of_mem _ hmem)
      · rintro ⟨hnd, hall⟩
        have hnda := List.nodup_cons.mp hnd
        refine ⟨hnda.2, ?_⟩
        intro s hs hmem
        rcases List.mem_cons.mp hmem with heq | hmem2
        · exact hnda.1 (List.mem_map.mpr ⟨s, hs, heq⟩)
        · exact (hall s (List.mem_cons_of_mem a hs)) hmem2

theorem parseSeats_ok_bounds (raws : List RawSeat) :
    ∀ l : List SeatRegion, parseSeats raws = Except.ok l →
      ((∀ raw ∈ raws, ∀ xm xM ym yM : ℚ,
          raw.bounds = some (xm, xM, ym, yM) → xm < xM ∧ ym < yM)
        ∧ ∀ s ∈ l, s.x_min < s.x_max ∧ s.y_min < s.y_max) := by
  induction raws with
  | nil =>
    intro l h
    simp only [parseSeats] at h
    injection h with h
    subst h
    exact ⟨by simp, by simp⟩
  | cons raw rest ih =>
    intro l h
    simp only [parseSeats] at h
    rcases hb : raw.bounds with _ | ⟨xm, xM, ym, yM⟩
    · rw [hb] at h
      dsimp only at h
      simp at h
    · rw [hb] at h
      dsimp only at h
      by_cases hbad : xm ≥ xM ∨ ym ≥ yM
      · rw [if_pos hbad] at h
        simp at h
      · rw [if_neg hbad] at h
        push_neg at hbad
        rcases hrest : parseSeats rest with e | tail
        · rw [hrest] at h
          dsimp only at h
          simp at h
        · rw [hrest] at h
          dsimp only at h
          injection h with h
          subst h
          obtain ⟨hall, htail⟩ := ih tail hrest
          constructor
          · intro r hr xm2 xM2 ym2 yM2 hb2
            rcases List.mem_cons.mp hr with rfl | hr2
            · rw [hb] at hb2
              simp only [Option.some.injEq, Prod.mk.injEq] at hb2
              obtain ⟨h1, h2, h3, h4⟩ := hb2
              subst h1; subst h2; subst h3; subst h4
              exact ⟨hbad.1, hbad.2⟩
            · exact hall r hr2 xm2 xM2 ym2 yM2 hb2
          · intro s hs
            rcases List.mem_cons.mp hs with rfl | hs2
            · exact ⟨hbad.1, hbad.2⟩
            · exact htail s hs2

/-- C4: constructing a `SeatingLayout` fails with a validation error for
an empty seat list or a repeated seat id, and loading from configuration
additionally fails when any rectangle has `x_min ≥ x_max` or
`y_min ≥ y_max`; no layout is produced in those cases. -/
theorem C4_layout_validation (seats : List SeatRegion) (raws : List RawSeat) :
    ((∃ e, SeatingLayout.init seats = Except.error e) ↔
        (seats = [] ∨ ¬ (seats.map SeatRegion.seat_id).Nodup))
    ∧ ((∃ raw ∈ raws, ∃ xm xM ym yM : ℚ,
          raw.bounds = some (xm, xM, ym, yM) ∧ (xM ≤ xm ∨ yM ≤ ym)) →
        ∃ e, SeatingLayout.from_mapping raws = Except.error e)
    ∧ (∀ l, SeatingLayout.from_mapping raws = Except.ok l →
        l ≠ [] ∧ (l.map SeatRegion.seat_id).Nodup ∧
          ∀ s ∈ l, s.x_min < s.x_max ∧ s.y_min < s.y_max) := by
  refine ⟨?_, ?_, ?_⟩
  · unfold SeatingLayout.init
    by_cases he : seats.isEmpty
    · rw [if_pos he]
      have hnil : seats = [] := List.isEmpty_iff.mp he
      exact ⟨fun _ => Or.inl hnil, fun _ => ⟨_, rfl⟩⟩
    · rw [if_neg he]
      have hne : seats ≠ [] := by
        intro hnil; subst hnil; exact he rfl
      by_cases hd : hasDuplicateId seats [] = true
      · rw [if_pos hd]
        refine ⟨fun _ => Or.inr ?_, fun _ => ⟨_, rfl⟩⟩
        intro hnd
        have hfalse := (hasDuplicateId_eq_false_iff seats []).mpr ⟨hnd, by simp⟩
        rw [hfalse] at hd
        cases hd
      · rw [if_neg hd]
        have hfd : hasDuplicateId seats [] = false := by
          revert hd; cases hasDuplicateId seats [] <;> simp
        have hnd := ((hasDuplicateId_eq_false_iff seats []).mp hfd).1
        constructor
        · rintro ⟨e, he2⟩; simp at he2
        · rintro (rfl | h)
          · exact absurd rfl hne
          · exact absurd hnd h
  · rintro ⟨raw, hraw, xm, xM, ym, yM, hb, hbad⟩
    unfold SeatingLayout.from_mapping
    rcases hps : parseSeats raws with e | l
    · exact ⟨e, rfl⟩
    · exfalso
      have hgood := (parseSeats_ok_bounds raws l hps).1 raw hraw xm xM ym yM hb
      rcases hbad with hbad | hbad
      · linarith [hgood.1]
      · linarith [hgood.2]
  · intro l hok
    unfold SeatingLayout.from_mapping at hok
    rcases hps : parseSeats raws with e | l2
    · rw [hps] at hok
      dsimp only at hok
      simp at hok
    · rw [hps] at hok
      dsimp only at hok
      unfold SeatingLayout.init at hok
      by_cases he : l2.isEmpty
      · rw [if_pos he] at hok
        simp at hok
      · rw [if_neg he] at hok
        by_cases hd : hasDuplicateId l2 [] = true
        · rw [if_pos hd] at hok
          simp at hok
        · rw [if_neg hd] at hok
          injection hok with hok
          subst hok
          have hfd : hasDuplicateId l2 [] = false := by
            revert hd; cases hasDuplicateId l2 [] <;> simp
          exact ⟨fun hnil => he (by rw [hnil]; rfl),
            ((hasDuplicateId_eq_false_iff l2 []).mp hfd).1,
            (parseSeats_ok_bounds raws l2 hps).2⟩

/-! ## Claim C5: wire frame format -/

/-- A concrete frame exercising every part of the wire layout. -/
def frameC5 : SkeletonData :=
  { joints := [("NOSE",
      { name := "NOSE", position := [1, 2, 3], rotation := some [0, 0, 0, 1]
        confidence := 1 })]
    timestamp_ms := 42
    metadata := [("provider", JVal.str "mediapipe")] }

/-- C5 counterexample: the serialized payload's keys are `_timestamp`,
`_joints` and `Meta` — the keys `timestamp`, `joints` and `meta` the
claim states are absent. -/
theorem C5_counterexample :
    (frameC5.to_dict).map Prod.fst = ["_timestamp", "_joints", "Meta"]
    ∧ (frameC5.to_dict).lookup "timestamp" = none
    ∧ (frameC5.to_dict).lookup "joints" = none
    ∧ (frameC5.to_dict).lookup "meta" = none := by
  have hmap : frameC5.joints.map Prod.snd
      = [{ name := "NOSE", position := [1, 2, 3], rotation := some [0, 0, 0, 1]
           confidence := 1 }] := rfl
  refine ⟨?_, ?_, ?_, ?_⟩ <;>
    simp [SkeletonData.to_dict, hmap, List.mergeSort_singleton, frameC5, List.lookup]

/-- C5 (amended): per transmitted frame the payload layout is
`{"_timestamp": <ms>, "_joints": [{"_name", "_position": {"x","y","z"}|null,
"_rotation": {"x","y","z","w"}|null, "_confidence"}], "Meta": {...}}`,
the `Meta` key present exactly when the frame's metadata is non-empty. -/
theorem C5_wire_format_amended (s : SkeletonData) :
    ((s.to_dict).map Prod.fst
        = ["_timestamp", "_joints"] ++ (if s.metadata.isEmpty then [] else ["Meta"]))
    ∧ (s.to_dict).lookup "_timestamp" = some (JVal.num (s.timestamp_ms : ℚ))
    ∧ (∃ js : List JVal,
        (s.to_dict).lookup "_joints" = some (JVal.arr js)
        ∧ js.length = s.joints.length
        ∧ ∀ v ∈ js, ∃ jt : Joint, jt ∈ s.joints.map Prod.snd ∧
            v = JVal.obj [("_name", JVal.str jt.name),
              ("_position", optJ (_as_vec (some jt.position) 3)),
              ("_rotation", optJ (_as_vec jt.rotation 4)),
              ("_confidence", JVal.num jt.confidence)])
    ∧ ((s.metadata.isEmpty = true → (s.to_dict).lookup "Meta" = none)
        ∧ (s.metadata.isEmpty = false →
            (s.to_dict).lookup "Meta" = some (JVal.obj s.metadata)))
    ∧ (∀ vs : List ℚ, vs ≠ [] → ∃ a b c : ℚ, _as_vec (some vs) 3
        = some (JVal.obj [("x", JVal.num a), ("y", JVal.num b), ("z", JVal.num c)]))
    ∧ (∀ vs : List ℚ, vs ≠ [] → ∃ a b c d : ℚ, _as_vec (some vs) 4
        = some (JVal.obj [("x", JVal.num a), ("y", JVal.num b),
            ("z", JVal.num c), ("w", JVal.num d)]))
    ∧ _as_vec none 4 = none := by
  refine ⟨?_, ?_, ?_, ⟨?_, ?_⟩, ?_, ?_, rfl⟩
  · by_cases hm : s.metadata.isEmpty <;> simp [SkeletonData.to_dict, hm]
  · by_cases hm : s.metadata.isEmpty <;> simp [SkeletonData.to_dict, hm, List.lookup]
  · refine ⟨((s.joints.map Prod.snd).mergeSort jointLe).map jointToJson, ?_, ?_, ?_⟩
    · by_cases hm : s.metadata.isEmpty <;>
        simp [SkeletonData.to_dict, hm, List.lookup]
    · rw [List.length_map, (List.mergeSort_perm (s.joints.map Prod.snd) jointLe).length_eq,
        List.length_map]
    · intro v hv
      rcases List.mem_map.mp hv with ⟨jt, hjt, rfl⟩
      exact ⟨jt, (List.mergeSort_perm (s.joints.map Prod.snd) jointLe).subset hjt, rfl⟩
  · intro hm
    simp [SkeletonData.to_dict, hm, List.lookup]
  · intro hm
    simp [SkeletonData.to_dict, hm, List.lookup]
  · intro vs hvs
    simp only [_as_vec, if_neg hvs, if_pos rfl]
    exact ⟨_, _, _, rfl⟩
  · intro vs hvs
    simp only [_as_vec, if_neg hvs]
    norm_num

/-! ## Claim C10: deterministic serialization -/

theorem jointLe_trans : ∀ a b c : Joint,
    jointLe a b = true → jointLe b c = true → jointLe a c = true := by
  intro a b c hab hbc
  simp only [jointLe, decide_eq_true_eq] at *
  exact le_trans hab hbc

theorem jointLe_total : ∀ a b : Joint, (jointLe a b || jointLe b a) = true := by
  intro a b
  simp only [jointLe, Bool.or_eq_true, decide_eq_true_eq]
  exact le_total a.name b.name

theorem sorted_perm_nodup_names_eq :
    ∀ l1 l2 : List Joint, l1.Perm l2 →
      List.Pairwise (fun a b => jointLe a b = true) l1 →
      List.Pairwise (fun a b => jointLe a b = true) l2 →
      (l1.map Joint.name).Nodup → l1 = l2 := by
  intro l1
  induction l1 with
  | nil =>
    intro l2 hp _ _ _
    exact (hp.symm.eq_nil).symm
  | cons a t1 ih =>
    intro l2 hp hs1 hs2 hnd
    cases l2 with
    | nil => cases hp.eq_nil
    | cons b t2 =>
      by_cases hab : a = b
      · subst hab
        have hp2 : t1.Perm t2 := hp.cons_inv
        have hnd2 : (t1.map Joint.name).Nodup := by
          rw [List.map_cons] at hnd
          exact (List.nodup_cons.mp hnd).2
        rw [ih t2 hp2 (List.Pairwise.of_cons hs1) (List.Pairwise.of_cons hs2) hnd2]
      · exfalso
        have ha2 : a ∈ b :: t2 := hp.subset (List.mem_cons_self a t1)
        have hb1 : b ∈ a :: t1 := hp.symm.subset (List.mem_cons_self b t2)
        have ha2t : a ∈ t2 := by
          rcases List.mem_cons.mp ha2 with h | h
          · exact absurd h hab
          · exact h
        have hb1t : b ∈ t1 := by
          rcases List.mem_cons.mp hb1 with h | h
          · exact absurd h.symm hab
          · exact h
        have h1 : jointLe a b = true := (List.pairwise_cons.mp hs1).1 b hb1t
        have h2 : jointLe b a = true := (List.pairwise_cons.mp hs2).1 a ha2t
        have hname : a.name = b.name := by
          simp only [jointLe, decide_eq_true_eq] at h1 h2
          exact le_antisymm h1 h2
        rw [List.map_cons] at hnd
        exact (List.nodup_cons.mp hnd).1
          (List.mem_map.mpr ⟨b, hb1t, hname.symm⟩)

theorem mergeSort_deterministic (l1 l2 : List Joint) (hperm : l1.Perm l2)
    (hnd : (l1.map Joint.name).Nodup) :
    l1.mergeSort jointLe = l2.mergeSort jointLe := by
  apply sorted_perm_nodup_names_eq
  · exact (List.mergeSort_perm l1 jointLe).trans
      (hperm.trans (List.mergeSort_perm l2 jointLe).symm)
  · exact List.sorted_mergeSort jointLe_trans jointLe_total l1
  · exact List.sorted_mergeSort jointLe_trans jointLe_total l2
  · exact (((List.mergeSort_perm l1 jointLe).map Joint.name).nodup_iff).mpr hnd

/-- Two joints sharing the name "n" but with different positions. -/
def jointN1 : Joint := { name := "n", position := [1], rotation := none, confidence := 1 }

/-- Second joint with the same name as `jointN1`. -/
def jointN2 : Joint := { name := "n", position := [2], rotation := none, confidence := 1 }

/-- A frame whose joint dict was filled "a" then "b". -/
def frameDupA : SkeletonData :=
  { joints := [("a", jointN1), ("b", jointN2)], timestamp_ms := 0, metadata := [] }

/-- The same joint dict as `frameDupA`, filled "b" then "a". -/
def frameDupB : SkeletonData :=
  { joints := [("b", jointN2), ("a", jointN1)], timestamp_ms := 0, metadata := [] }

/-- C10 counterexample: two frames with the same timestamp, the same
metadata and equal joint dicts (the same key/value pairs, hence equal
lookups) serialize differently, because two entries share a joint name
and the stable sort keeps their insertion order. -/
theorem C10_counterexample :
    frameDupA.timestamp_ms = frameDupB.timestamp_ms
    ∧ frameDupA.metadata = frameDupB.metadata
    ∧ frameDupA.joints.Perm frameDupB.joints
    ∧ frameDupA.to_dict ≠ frameDupB.to_dict := by
  have hpairA : List.Pairwise (fun a b => jointLe a b = true) [jointN1, jointN2] := by
    refine List.pairwise_cons.mpr ⟨?_, List.pairwise_singleton _ _⟩
    intro b hb
    obtain rfl : b = jointN2 := List.mem_singleton.mp hb
    exact decide_eq_true (le_refl "n")
  have hpairB : List.Pairwise (fun a b => jointLe a b = true) [jointN2, jointN1] := by
    refine List.pairwise_cons.mpr ⟨?_, List.pairwise_singleton _ _⟩
    intro b hb
    obtain rfl : b = jointN1 := List.mem_singleton.mp hb
    exact decide_eq_true (le_refl "n")
  refine ⟨rfl, rfl, ?_, ?_⟩
  · exact List.Perm.swap _ _ _
  · have hA : (frameDupA.joints.map Prod.snd).mergeSort jointLe = [jointN1, jointN2] :=
      List.mergeSort_of_sorted hpairA
    have hB : (frameDupB.joints.map Prod.snd).mergeSort jointLe = [jointN2, jointN1] :=
      List.mergeSort_of_sorted hpairB
    intro h
    simp only [SkeletonData.to_dict, hA, hB] at h
    simp [jointToJson, _as_vec, optJ, jointN1, jointN2, frameDupA, frameDupB] at h

/-- C10 (amended): serialization is insertion-order independent —
frames with equal timestamp, equal metadata and joint dicts holding the
same joints serialize identically — provided no two joints of the frame
share a joint name (as is the case whenever joints are keyed by their
own name, which every provider does). -/
theorem C10_serialization_deterministic (f1 f2 : SkeletonData)
    (ht : f1.timestamp_ms = f2.timestamp_ms)
    (hm : f1.metadata = f2.metadata)
    (hj : (f1.joints.map Prod.snd).Perm (f2.joints.map Prod.snd))
    (hnd : ((f1.joints.map Prod.snd).map Joint.name).Nodup) :
    f1.to_dict = f2.to_dict := by
  unfold SkeletonData.to_dict
  rw [ht, hm, mergeSort_deterministic _ _ hj hnd]

/-- A frame whose joint dict was filled NOSE then LEFT_HIP. -/
def frameOrdA : SkeletonData :=
  { joints := [("NOSE", { name := "NOSE", position := [1], rotation := none, confidence := 1 }),
               ("LEFT_HIP", { name := "LEFT_HIP", position := [2], rotation := none, confidence := 1 })]
    timestamp_ms := 7, metadata := [] }

/-- The same joints as `frameOrdA`, inserted in the opposite order. -/
def frameOrdB : SkeletonData :=
  { joints := [("LEFT_HIP", { name := "LEFT_HIP", position := [2], rotation := none, confidence := 1 }),
               ("NOSE", { name := "NOSE", position := [1], rotation := none, confidence := 1 })]
    timestamp_ms := 7, metadata := [] }

theorem C10_serialization_deterministic_witness :
    frameOrdA.to_dict = frameOrdB.to_dict :=
  C10_serialization_deterministic frameOrdA frameOrdB rfl rfl
    (List.Perm.swap _ _ _) (by decide)

/-! ## Claim C6: send on a disconnected transport -/

/-- C6 counterexample: the UDP transport's `send` raises
`RuntimeError("Transport is not connected")` when the transport has no
socket, instead of degrading to a silent drop. -/
theorem C6_counterexample :
    udpSend { socket := none } = Except.error "Transport is not connected" := rfl

/-- C6 (amended): the WebSocket transport's `send` never raises — with
no tracked connection it silently drops the frame leaving the state
unchanged, and a raising underlying send is caught and clears the
tracked connection so every subsequent send drops; the UDP transport's
`send`, by contrast, raises a `RuntimeError` when `connect()` has not
opened a socket, and otherwise sends one datagram. -/
theorem C6_send_disconnect_behavior (st : WSState) (outcome : WireOutcome) (u : UDPState) :
    (∃ r, wsSend st outcome = Except.ok r)
    ∧ (st.connection = none →
        wsSend st outcome = Except.ok (st, SendResult.droppedNoConn))
    ∧ (∀ c, st.connection = some c → outcome ≠ WireOutcome.ok →
        wsSend st outcome = Except.ok ({ connection := none }, SendResult.failedCleared)
          ∧ ∀ outcome2, wsSend { connection := none } outcome2
              = Except.ok ({ connection := none }, SendResult.droppedNoConn))
    ∧ (u.socket = none → udpSend u = Except.error "Transport is not connected")
    ∧ (∀ sck, u.socket = some sck → udpSend u = Except.ok (u, SendResult.sent)) := by
  refine ⟨?_, ?_, ?_, ?_, ?_⟩
  · rcases hc : st.connection with _ | c
    · exact ⟨(st, SendResult.droppedNoConn), by simp [wsSend, hc]⟩
    · cases outcome
      · exact ⟨(st, SendResult.sent), by simp [wsSend, hc]⟩
      · exact ⟨({ connection := none }, SendResult.failedCleared), by simp [wsSend, hc]⟩
      · exact ⟨({ connection := none }, SendResult.failedCleared), by simp [wsSend, hc]⟩
  · intro hc
    simp [wsSend, hc]
  · intro c hc hno
    constructor
    · cases outcome
      · exact absurd rfl hno
      · simp [wsSend, hc]
      · simp [wsSend, hc]
    · intro o2
      cases o2 <;> simp [wsSend]
  · intro hs
    simp [udpSend, hs]
  · intro sck hs
    simp [udpSend, hs]

/-! ## Claim C7: metadata enrichment and the disabled-seating key -/

/-- The stale seating report carried in the failing frame's own metadata,
as in `test_update_seating_layout_can_disable_seating`. -/
def staleSeating : JVal := JVal.obj [("activeSeatId", JVal.str "seat-a")]

/-- C7: evaluating `_apply_metadata` at the failing input — no seating
layout configured, no calibration, no static metadata, and a frame whose
own metadata already holds a "seating" key — the stale "seating" key
survives into the enriched result, where the claim (and the repository's
test `test_update_seating_layout_can_disable_seating`) requires it
omitted. -/
theorem C7_stale_seating_persists :
    _apply_metadata [("seating", staleSeating)] none [] none
      = [("seating", staleSeating)]
    ∧ (_apply_metadata [("seating", staleSeating)] none [] none).lookup "seating"
      = some staleSeating := by
  constructor
  · rfl
  · simp [_apply_metadata, List.lookup]

/-! ## Claim C8: resize drags and the minimum extent -/

theorem clamp_bounds {lo hi : ℚ} (v : ℚ) (h : lo ≤ hi) :
    lo ≤ _clamp v lo hi ∧ _clamp v lo hi ≤ hi :=
  ⟨le_max_left _ _, max_le h (min_le_left _ _)⟩

/-- A pre-existing narrow seat; its bounds are accepted by the
configuration loader (0 < 1/100, 0 < 1/2). -/
def narrowSeat : SeatDraft :=
  { seat_id := "s1", x_min := 0, y_min := 0, x_max := 1/100, y_max := 1/2 }

/-- C8 counterexample: a resize-drag pointer-move at pixel (500, 250) on
a 1000×1000 frame with the top-left corner anchor leaves `narrowSeat`
with width 1/100 on the adjusted x-axis, below the minimum normalized
extent 1/50. -/
theorem C8_counterexample :
    (_update_drag_resize 1000 1000 500 250 narrowSeat anchorLT).x_max
      - (_update_drag_resize 1000 1000 500 250 narrowSeat anchorLT).x_min
      < _MIN_EXTENT := by
  have hW : ((max 1 (1000 : Int) : Int) : ℚ) = 1000 := rfl
  simp only [_update_drag_resize, resizeSeat, anchorLT, narrowSeat, hW]
  norm_num [_clamp, _MIN_EXTENT]

/-- The editor's seat invariant: edges within [0, 1] and at least the
minimum normalized extent on each axis. -/
def ValidDraft (s : SeatDraft) : Prop :=
  0 ≤ s.x_min ∧ s.x_min + _MIN_EXTENT ≤ s.x_max ∧ s.x_max ≤ 1 ∧
  0 ≤ s.y_min ∧ s.y_min + _MIN_EXTENT ≤ s.y_max ∧ s.y_max ≤ 1

theorem axinv_low {lo hi : ℚ} (v : ℚ) (h0 : 0 ≤ lo) (h1 : lo + _MIN_EXTENT ≤ hi)
    (h2 : hi ≤ 1) :
    0 ≤ _clamp v 0 (hi - _MIN_EXTENT)
    ∧ _clamp v 0 (hi - _MIN_EXTENT) + _MIN_EXTENT ≤ hi ∧ hi ≤ 1 := by
  have hle : (0 : ℚ) ≤ hi - _MIN_EXTENT := by linarith
  obtain ⟨ha, hb⟩ := clamp_bounds v hle
  exact ⟨ha, by linarith, h2⟩

theorem axinv_high {lo hi : ℚ} (v : ℚ) (h0 : 0 ≤ lo) (h1 : lo + _MIN_EXTENT ≤ hi)
    (h2 : hi ≤ 1) :
    0 ≤ lo ∧ lo + _MIN_EXTENT ≤ _clamp v (lo + _MIN_EXTENT) 1
    ∧ _clamp v (lo + _MIN_EXTENT) 1 ≤ 1 := by
  obtain ⟨ha, hb⟩ := clamp_bounds v (le_trans h1 h2)
  exact ⟨h0, ha, hb⟩

/-- C8 (amended): on a seat satisfying the editor invariant — edges in
[0, 1] and width and height at least the minimum normalized extent, as
holds for every seat the editor itself creates — every resize-drag
pointer-move with a corner anchor preserves the invariant: the updated
seat keeps at least the minimum extent on each axis and its edges stay
within [0, 1]. -/
theorem C8_resize_preserves_invariant (frameW frameH x y : Int) (seat : SeatDraft)
    (anchor : Anchor)
    (hanchor : anchor = anchorLT ∨ anchor = anchorRT ∨ anchor = anchorLB ∨ anchor = anchorRB)
    (hv : ValidDraft seat) :
    ValidDraft (_update_drag_resize frameW frameH x y seat anchor)
    ∧ _MIN_EXTENT ≤ (_update_drag_resize frameW frameH x y seat anchor).x_max
        - (_update_drag_resize frameW frameH x y seat anchor).x_min
    ∧ _MIN_EXTENT ≤ (_update_drag_resize frameW frameH x y seat anchor).y_max
        - (_update_drag_resize frameW frameH x y seat anchor).y_min := by
  obtain ⟨h1, h2, h3, h4, h5, h6⟩ := hv
  rcases hanchor with rfl | rfl | rfl | rfl
  · rw [show _update_drag_resize frameW frameH x y seat anchorLT
        = { seat_id := seat.seat_id
            x_min := _clamp ((x : ℚ) / ((max 1 frameW : Int) : ℚ)) 0 (seat.x_max - _MIN_EXTENT)
            y_min := _clamp ((y : ℚ) / ((max 1 frameH : Int) : ℚ)) 0 (seat.y_max - _MIN_EXTENT)
            x_max := seat.x_max, y_max := seat.y_max } from rfl]
    obtain ⟨a1, a2, a3⟩ := axinv_low ((x : ℚ) / ((max 1 frameW : Int) : ℚ)) h1 h2 h3
    obtain ⟨b1, b2, b3⟩ := axinv_low ((y : ℚ) / ((max 1 frameH : Int) : ℚ)) h4 h5 h6
    exact ⟨⟨a1, a2, a3, b1, b2, b3⟩, by dsimp only; linarith, by dsimp only; linarith⟩
  · rw [show _update_drag_resize frameW frameH x y seat anchorRT
        = { seat_id := seat.seat_id
            x_min := seat.x_min
            y_min := _clamp ((y : ℚ) / ((max 1 frameH : Int) : ℚ)) 0 (seat.y_max - _MIN_EXTENT)
            x_max := _clamp ((x : ℚ) / ((max 1 frameW : Int) : ℚ)) (seat.x_min + _MIN_EXTENT) 1
            y_max := seat.y_max } from rfl]
    obtain ⟨a1, a2, a3⟩ := axinv_high ((x : ℚ) / ((max 1 frameW : Int) : ℚ)) h1 h2 h3
    obtain ⟨b1, b2, b3⟩ := axinv_low ((y : ℚ) / ((max 1 frameH : Int) : ℚ)) h4 h5 h6
    exact ⟨⟨a1, a2, a3, b1, b2, b3⟩, by dsimp only; linarith, by dsimp only; linarith⟩
  · rw [show _update_drag_resize frameW frameH x y seat anchorLB
        = { seat_id := seat.seat_id
            x_min := _clamp ((x : ℚ) / ((max 1 frameW : Int) : ℚ)) 0 (seat.x_max - _MIN_EXTENT)
            y_min := seat.y_min
            x_max := seat.x_max
            y_max := _clamp ((y : ℚ) / ((max 1 frameH : Int) : ℚ)) (seat.y_min + _MIN_EXTENT) 1 }
        from rfl]
    obtain ⟨a1, a2, a3⟩ := axinv_low ((x : ℚ) / ((max 1 frameW : Int) : ℚ)) h1 h2 h3
    obtain ⟨b1, b2, b3⟩ := axinv_high ((y : ℚ) / ((max 1 frameH : Int) : ℚ)) h4 h5 h6
    exact ⟨⟨a1, a2, a3, b1, b2, b3⟩, by dsimp only; linarith, by dsimp only; linarith⟩
  · rw [show _update_drag_resize frameW frameH x y seat anchorRB
        = { seat_id := seat.seat_id
            x_min := seat.x_min
            y_min := seat.y_min
            x_max := _clamp ((x : ℚ) / ((max 1 frameW : Int) : ℚ)) (seat.x_min + _MIN_EXTENT) 1
            y_max := _clamp ((y : ℚ) / ((max 1 frameH : Int) : ℚ)) (seat.y_min + _MIN_EXTENT) 1 }
        from rfl]
    obtain ⟨a1, a2, a3⟩ := axinv_high ((x : ℚ) / ((max 1 frameW : Int) : ℚ)) h1 h2 h3
    obtain ⟨b1, b2, b3⟩ := axinv_high ((y : ℚ) / ((max 1 frameH : Int) : ℚ)) h4 h5 h6
    exact ⟨⟨a1, a2, a3, b1, b2, b3⟩, by dsimp only; linarith, by dsimp only; linarith⟩

/-- C8 witness: the invariant-preservation theorem applied to a concrete
seat, anchor and pointer position. -/
theorem C8_resize_preserves_invariant_witness :
    ValidDraft (_update_drag_resize 1000 1000 900 900
        { seat_id := "s1", x_min := 0, y_min := 0, x_max := 1/2, y_max := 1/2 } anchorRB)
    ∧ _MIN_EXTENT ≤ (_update_drag_resize 1000 1000 900 900
        { seat_id := "s1", x_min := 0, y_min := 0, x_max := 1/2, y_max := 1/2 } anchorRB).x_max
        - (_update_drag_resize 1000 1000 900 900
        { seat_id := "s1", x_min := 0, y_min := 0, x_max := 1/2, y_max := 1/2 } anchorRB).x_min
    ∧ _MIN_EXTENT ≤ (_update_drag_resize 1000 1000 900 900
        { seat_id := "s1", x_min := 0, y_min := 0, x_max := 1/2, y_max := 1/2 } anchorRB).y_max
        - (_update_drag_resize 1000 1000 900 900
        { seat_id := "s1", x_min := 0, y_min := 0, x_max := 1/2, y_max := 1/2 } anchorRB).y_min :=
  C8_resize_preserves_invariant 1000 1000 900 900
    { seat_id := "s1", x_min := 0, y_min := 0, x_max := 1/2, y_max := 1/2 } anchorRB
    (Or.inr (Or.inr (Or.inr rfl)))
    (by norm_num [ValidDraft, _MIN_EXTENT])

/-! ## Claim C9: committing a create drag -/

theorem init_ok_of_nodup (seats2 : List SeatRegion) (hne : seats2 ≠ [])
    (hnd : (seats2.map SeatRegion.seat_id).Nodup) :
    SeatingLayout.init seats2 = Except.ok seats2 := by
  have hfd : hasDuplicateId seats2 [] = false :=
    (hasDuplicateId_eq_false_iff seats2 []).mpr ⟨hnd, by simp⟩
  unfold SeatingLayout.init
  rw [if_neg (fun h => hne (List.isEmpty_iff.mp h)), if_neg (by simp [hfd])]

/-- C9: a create drag below the 8-pixel threshold on either axis adds no
seat and emits nothing; otherwise the normalized seat is appended with a
fresh id of the form `seat-<2-digit index>` that skips every id already
in use, the new seat is selected, and the updated layout is emitted.
The last conjunct is the spec's example: dragging (100,100)–(300,300) on
a 1000×1000 frame yields normalized bounds (0.1, 0.1)–(0.3, 0.3). -/
theorem C9_create_drag (st : EditorState) (sx sy ex ey : Int)
    (hnd : (st.seats.map SeatDraft.seat_id).Nodup) :
    (((ex - sx).natAbs < 8 ∨ (ey - sy).natAbs < 8) →
        _handle_create_up st sx sy ex ey = (st, none))
    ∧ (8 ≤ (ex - sx).natAbs → 8 ≤ (ey - sy).natAbs →
        ∃ draft : SeatDraft,
          (_handle_create_up st sx sy ex ey).1.seats = st.seats ++ [draft]
          ∧ (_handle_create_up st sx sy ex ey).1.selected = some st.seats.length
          ∧ draft.seat_id = _generate_seat_id (st.seats.map SeatDraft.seat_id)
          ∧ draft.seat_id ∉ st.seats.map SeatDraft.seat_id
          ∧ (∃ i : Nat, 1 ≤ i ∧ draft.seat_id = candidateId i
              ∧ ∀ j : Nat, 1 ≤ j → j < i →
                  candidateId j ∈ st.seats.map SeatDraft.seat_id)
          ∧ (_handle_create_up st sx sy ex ey).2
              = some (some ((st.seats ++ [draft]).map SeatDraft.to_region)))
    ∧ ((_finalize_new_seat { seats := [], selected := none, frameW := 1000, frameH := 1000 }
          100 100 300 300).seats.map (fun d => (d.x_min, d.y_min, d.x_max, d.y_max))
        = [(1/10, 1/10, 3/10, 3/10)]) := by
  refine ⟨?_, ?_, ?_⟩
  · intro hlt
    unfold _handle_create_up
    rw [if_neg (by rintro ⟨ha, hb⟩; rcases hlt with h | h <;> omega)]
  · intro h8x h8y
    have hstep : _handle_create_up st sx sy ex ey
        = (_finalize_new_seat st sx sy ex ey,
            _emit_layout (_finalize_new_seat st sx sy ex ey).seats) := by
      unfold _handle_create_up
      rw [if_pos ⟨h8x, h8y⟩]
    have hfresh : _generate_seat_id (st.seats.map SeatDraft.seat_id)
        ∉ st.seats.map SeatDraft.seat_id :=
      Nat.find_spec (exists_unused_candidate (st.seats.map SeatDraft.seat_id))
    refine ⟨_new_seat_draft st sx sy ex ey, by rw [hstep]; rfl, by rw [hstep]; rfl, rfl,
      hfresh, ?_, ?_⟩
    · refine ⟨Nat.find (exists_unused_candidate (st.seats.map SeatDraft.seat_id)) + 1,
        by omega, rfl, ?_⟩
      intro j hj1 hji
      have hmin := Nat.find_min (exists_unused_candidate (st.seats.map SeatDraft.seat_id))
        (show j - 1 < Nat.find (exists_unused_candidate (st.seats.map SeatDraft.seat_id))
          by omega)
      rw [not_not] at hmin
      have hj : j - 1 + 1 = j := by omega
      rwa [hj] at hmin
    · rw [hstep]
      have hids : (((st.seats ++ [_new_seat_draft st sx sy ex ey]).map SeatDraft.to_region).map
            SeatRegion.seat_id)
          = (st.seats ++ [_new_seat_draft st sx sy ex ey]).map SeatDraft.seat_id := by
        rw [List.map_map]; rfl
      have hnd2 : ((st.seats ++ [_new_seat_draft st sx sy ex ey]).map SeatDraft.seat_id).Nodup := by
        rw [List.map_append]
        refine List.Nodup.append hnd (List.nodup_singleton _) ?_
        intro a ha hb
        rw [List.map_cons, List.map_nil, List.mem_singleton] at hb
        subst hb
        exact hfresh ha
      have hinit := init_ok_of_nodup
        ((st.seats ++ [_new_seat_draft st sx sy ex ey]).map SeatDraft.to_region)
        (by simp) (by rw [hids]; exact hnd2)
      show _emit_layout ((st.seats ++ [_new_seat_draft st sx sy ex ey])) = _
      unfold _emit_layout
      rw [if_neg (by simp), hinit]
  · have h1000 : ((max 1 (1000 : Int) : Int) : ℚ) = 1000 := rfl
    have hmn : (min (100 : Int) 300) = 100 := rfl
    have hmx : (max (100 : Int) 300) = 300 := rfl
    simp only [_finalize_new_seat, _new_seat_draft, hmn, hmx, h1000,
      List.nil_append, List.map_cons, List.map_nil]
    norm_num [_clamp, _MIN_EXTENT, min_def, max_def]

/-- C9 witness: the theorem applied to an empty editor on a 1000×1000
frame with a drag from pixel (100,100) to (300,300). -/
theorem C9_create_drag_witness :
    (_finalize_new_seat { seats := [], selected := none, frameW := 1000, frameH := 1000 }
        100 100 300 300).seats.map (fun d => (d.x_min, d.y_min, d.x_max, d.y_max))
      = [(1/10, 1/10, 3/10, 3/10)] :=
  (C9_create_drag { seats := [], selected := none, frameW := 1000, frameH := 1000 }
      100 100 300 300 (by simp)).2.2
